import Mathlib

/-!
Verification of the wildcard ("glob") pattern matcher in `src/glob.cpp`.

Characters are modelled as natural-number code units (the C++ code is
generic over a fixed-width character type `CharT`; all operations used
are equality, ordering against ASCII letter bounds, and bitwise-or with
the fold bit, all of which are faithfully represented on `Nat`).

The sequence algorithm `glob` below is a direct transcription of the
iterator-level C++ function: a loop that first runs `std::mismatch` with
the wildcard comparator, then inspects the stopping position, and on a
star in the pattern recurses lazily (zero characters first), advancing
the subject position one character per retry.  The C++ `for (;;)` loop
with `sit = std::next(sit)` is rendered as the tail call
`glob cs (c :: pr) ss` at the same pattern position.
-/

namespace GlobCpp

/-- `lowercase_bit<CharT> = 'a' - 'A'`, i.e. `0x20`. -/
def lowercase_bit : Nat := 32

/-- `to_lower(c) { return c | lowercase_bit<CharT>; }` -/
def to_lower (c : Nat) : Nat := c ||| lowercase_bit

/-- `is_alpha(in) { const CharT c = to_lower(in); return (c >= 'a') & (c <= 'z'); }` -/
def is_alpha (c : Nat) : Bool :=
  decide (97 ≤ to_lower c) && decide (to_lower c ≤ 122)

/-- the code unit of the metacharacter `*` -/
def star : Nat := 42

/-- the code unit of the metacharacter `?` -/
def qmark : Nat := 63

/-- the code unit of the character `.` -/
def dot : Nat := 46

/-- `wildcard_comparator<CaseSensitive>::operator()(pattern, subject)`:
if the pattern character is `?` it matches anything but `.`; otherwise
case-sensitive mode compares exactly, and case-insensitive mode accepts
exact equality or (both alphabetic and equal lowercase forms). -/
def wildcard_comparator (cs : Bool) (pattern subject : Nat) : Bool :=
  if pattern = qmark then
    decide (subject ≠ dot)
  else if cs then
    decide (pattern = subject)
  else
    decide (pattern = subject) ||
      (is_alpha pattern && is_alpha subject &&
        decide (to_lower pattern = to_lower subject))

/-- `std::mismatch(pit, pend, sit, send, wildcard_comparator<CaseSensitive>{})`:
advance both sequences in lock step while the comparator accepts the pair,
stopping when either sequence is exhausted or the comparator rejects;
returns the two residual sequences. -/
def mismatch (cs : Bool) : List Nat → List Nat → List Nat × List Nat
  | p :: ps, s :: ss =>
    if wildcard_comparator cs p s then mismatch cs ps ss else (p :: ps, s :: ss)
  | p, s => (p, s)

theorem mismatch_fst_length (cs : Bool) :
    ∀ p s : List Nat, (mismatch cs p s).1.length ≤ p.length := by
  intro p
  induction p with
  | nil => intro s; simp [mismatch]
  | cons c ps ih =>
    intro s
    cases s with
    | nil => simp [mismatch]
    | cons x ss =>
      by_cases h : wildcard_comparator cs c x
      · simp only [mismatch, h, if_true]
        exact Nat.le_trans (ih ss) (Nat.le_succ _)
      · simp [mismatch, h]

theorem mismatch_snd_length (cs : Bool) :
    ∀ p s : List Nat, (mismatch cs p s).2.length ≤ s.length := by
  intro p
  induction p with
  | nil => intro s; simp [mismatch]
  | cons c ps ih =>
    intro s
    cases s with
    | nil => simp [mismatch]
    | cons x ss =>
      by_cases h : wildcard_comparator cs c x
      · simp only [mismatch, h, if_true]
        exact Nat.le_trans (ih ss) (Nat.le_succ _)
      · simp [mismatch, h]

/-- `glob<CaseSensitive>(pit, pend, sit, send)`: the sequence-level matcher.
Each loop iteration runs `mismatch`; if the residual pattern is empty the
result is whether the residual subject is empty; if it starts with a
non-star character the match fails; on a star the code first recurses with
the pattern past the star (lazy, zero-character consumption), then on
failure either fails (subject exhausted) or retries after advancing the
subject one character (the `for (;;)` loop). -/
def glob (cs : Bool) (p s : List Nat) : Bool :=
  match hm : mismatch cs p s with
  | ([], sr) => sr.isEmpty
  | (c :: pr, sr) =>
    if c = star then
      if glob cs pr sr then
        true
      else
        match sr with
        | [] => false
        | _ :: ss => glob cs (c :: pr) ss
    else
      false
termination_by (p.length, s.length)
decreasing_by
  · have h1 := mismatch_fst_length cs p s
    have h2 := mismatch_snd_length cs p s
    rw [hm] at h1 h2
    simp only [List.length_cons] at h1
    apply Prod.Lex.left
    omega
  · have h1 := mismatch_fst_length cs p s
    have h2 := mismatch_snd_length cs p s
    rw [hm] at h1 h2
    simp only [List.length_cons] at h1 h2
    rcases Nat.lt_or_ge (c :: pr).length p.length with hlt | hge
    · apply Prod.Lex.left
      simpa using hlt
    · have heq : (c :: pr).length = p.length := Nat.le_antisymm (by simpa using h1) hge
      simp only [List.length_cons] at heq
      rw [show (c :: pr).length = p.length from by simpa using heq]
      apply Prod.Lex.right
      omega

/-- `glob<CaseSensitive>(std::basic_string_view, std::basic_string_view)`:
the overload that forwards the character contents to the iterator-level
function. -/
def glob_sv (cs : Bool) (pattern subject : List Nat) : Bool :=
  glob cs pattern subject

/-- the generic overload `glob<CaseSensitive>(const A &, const B &)` for any
two arguments convertible to `basic_string_view` of the same character type:
it converts both and forwards to the `string_view` overload. -/
def glob_generic (cs : Bool) (a b : List Nat) : Bool :=
  glob_sv cs a b

/-- `fixed_string<CharT, Length>`: stores the `Length` characters of a string
literal, terminating null included. -/
structure fixed_string where
  data : List Nat

/-- `fixed_string::size() { return Length - 1u; }` (zero-terminated). -/
def fixed_string.size (f : fixed_string) : Nat := f.data.length - 1

/-- `fixed_string::to_view()`: a view of the first `size()` characters,
dropping the terminating null. -/
def fixed_string.to_view (f : fixed_string) : List Nat := f.data.take f.size

/-- `glob_match<Pattern, CaseSensitive = case_insensitive>(in)`: matches a
compile-time pattern literal against the input via the `string_view`
overload. -/
def glob_match (P : fixed_string) (cs : Bool) (s : List Nat) : Bool :=
  glob_sv cs P.to_view s

/-- `glob_me(pattern, subject) { return glob<case_insensitive>(pattern, subject); }` -/
def glob_me (pattern subject : List Nat) : Bool :=
  glob_generic false pattern subject

/-- Case split of `glob` when `mismatch` exhausts the pattern: the result is
whether the residual subject is empty. -/
theorem glob_eq_nil (cs : Bool) (p s sr : List Nat) (hm : mismatch cs p s = ([], sr)) :
    glob cs p s = sr.isEmpty := by
  rw [glob.eq_def]
  split
  · next sr2 heq =>
      rw [hm] at heq
      simp_all
  · next c pr sr2 heq =>
      rw [hm] at heq
      simp_all

/-- Case split of `glob` when `mismatch` stops with a nonempty residual
pattern: a literal stop fails, a star stop is resolved lazily. -/
theorem glob_eq_cons (cs : Bool) (p s : List Nat) (c : Nat) (pr sr : List Nat)
    (hm : mismatch cs p s = (c :: pr, sr)) :
    glob cs p s =
      if c = star then
        if glob cs pr sr then true
        else
          match sr with
          | [] => false
          | _ :: ss => glob cs (c :: pr) ss
      else false := by
  rw [glob.eq_def]
  split
  · next sr2 heq =>
      rw [hm] at heq
      simp_all
  · next c2 pr2 sr2 heq =>
      rw [hm] at heq
      simp only [Prod.mk.injEq, List.cons.injEq] at heq
      obtain ⟨⟨hc, hpr⟩, hsr⟩ := heq
      subst hc; subst hpr; subst hsr
      rfl

/-- Fuel-indexed transcription of the same recursion: `none` means the fuel
ran out before the algorithm finished.  Used to state termination of `glob`
with an explicit bound. -/
def globFuel (cs : Bool) : Nat → List Nat → List Nat → Option Bool
  | 0, _, _ => none
  | fuel + 1, p, s =>
    match mismatch cs p s with
    | ([], sr) => some sr.isEmpty
    | (c :: pr, sr) =>
      if c = star then
        match globFuel cs fuel pr sr with
        | some true => some true
        | some false =>
          match sr with
          | [] => some false
          | _ :: ss => globFuel cs fuel (c :: pr) ss
        | none => none
      else some false

/-- Any fuel exceeding the combined length of pattern and subject is enough:
the fuel-indexed recursion finishes and computes `glob`. -/
theorem globFuel_eq (cs : Bool) :
    ∀ (fuel : Nat) (p s : List Nat), p.length + s.length < fuel →
      globFuel cs fuel p s = some (glob cs p s) := by
  intro fuel
  induction fuel with
  | zero => intro p s h; omega
  | succ n ih =>
    intro p s h
    have h1 := mismatch_fst_length cs p s
    have h2 := mismatch_snd_length cs p s
    rcases hm : mismatch cs p s with ⟨p1, sr⟩
    rw [hm] at h1 h2
    dsimp only at h1 h2
    cases p1 with
    | nil =>
      rw [glob_eq_nil cs p s sr hm]
      simp only [globFuel, hm]
    | cons c pr =>
      rw [glob_eq_cons cs p s c pr sr hm]
      simp only [globFuel, hm]
      by_cases hc : c = star
      · simp only [hc, if_true]
        have hrec1 : globFuel cs n pr sr = some (glob cs pr sr) := by
          apply ih
          simp only [List.length_cons] at h1
          omega
        rw [hrec1]
        by_cases hg : glob cs pr sr = true
        · simp [hg]
        · simp only [Bool.not_eq_true] at hg
          simp only [hg]
          cases sr with
          | nil => simp
          | cons x ss =>
            have hrec2 : globFuel cs n (c :: pr) ss = some (glob cs (c :: pr) ss) := by
              apply ih
              simp only [List.length_cons] at h1 h2 ⊢
              omega
            rw [← hc]
            exact hrec2
      · simp [hc]

/-- Evaluation principle for concrete inputs: a `globFuel` computation with
sufficient fuel determines the value of `glob`. -/
theorem glob_eval (cs : Bool) (p s : List Nat) (b : Bool)
    (h : globFuel cs (p.length + s.length + 1) p s = some b) :
    glob cs p s = b := by
  have he := globFuel_eq cs (p.length + s.length + 1) p s (by omega)
  rw [he] at h
  exact Option.some.inj h

/-- A pair accepted by the case-sensitive comparator is accepted by the
case-insensitive one (exact equality is its first disjunct). -/
theorem wildcard_comparator_mono (p s : Nat)
    (h : wildcard_comparator true p s = true) : wildcard_comparator false p s = true := by
  by_cases hq : p = qmark
  · simpa [wildcard_comparator, hq] using h
  · simp only [wildcard_comparator, hq, if_false, if_true] at h ⊢
    simp_all

/-- On a star pattern character both comparators coincide: `*` is not
alphabetic, so only exact equality with the subject character matters. -/
theorem wildcard_comparator_star (cs : Bool) (s : Nat) :
    wildcard_comparator cs star s = decide (star = s) := by
  have hq : star ≠ qmark := by decide
  have ha : is_alpha star = false := by decide
  cases cs <;> simp [wildcard_comparator, hq, ha]

/-- The two scans either stop at the same place, or the case-sensitive scan
stops at a rejected non-star pattern character with subject remaining (the
only pairs the case-insensitive comparator additionally accepts). -/
theorem mismatch_cases : ∀ p s : List Nat,
    mismatch false p s = mismatch true p s ∨
    ∃ c pr sr, mismatch true p s = (c :: pr, sr) ∧ c ≠ star ∧ sr ≠ [] := by
  intro p
  induction p with
  | nil => intro s; left; simp [mismatch]
  | cons c ps ih =>
    intro s
    cases s with
    | nil => left; simp [mismatch]
    | cons x ss =>
      by_cases ht : wildcard_comparator true c x = true
      · have hf : wildcard_comparator false c x = true := wildcard_comparator_mono c x ht
        simp only [mismatch, ht, hf, if_true]
        exact ih ss
      · by_cases hf : wildcard_comparator false c x = true
        · right
          refine ⟨c, ps, x :: ss, by simp [mismatch, ht], ?_, by simp⟩
          intro hcs
          subst hcs
          rw [wildcard_comparator_star] at ht hf
          exact ht hf
        · left
          simp [mismatch, ht, hf]

/-- Auxiliary induction (on the combined length) for the monotonicity of the
matcher in the case-sensitivity mode. -/
theorem glob_mono_aux : ∀ n : Nat, ∀ p s : List Nat, p.length + s.length ≤ n →
    glob true p s = true → glob false p s = true := by
  intro n
  induction n with
  | zero =>
    intro p s hlen h
    have hp : p = [] := by cases p <;> simp_all
    have hs : s = [] := by cases s <;> simp_all
    subst hp; subst hs
    rw [glob_eq_nil false [] [] [] (by simp [mismatch])]
    simp
  | succ n ih =>
    intro p s hlen h
    rcases mismatch_cases p s with hagree | ⟨c, pr, sr, hmt, hcst, hsr⟩
    · rcases hm : mismatch true p s with ⟨p1, sr⟩
      have hmf : mismatch false p s = (p1, sr) := by rw [hagree, hm]
      have h1 := mismatch_fst_length true p s
      have h2 := mismatch_snd_length true p s
      rw [hm] at h1 h2
      dsimp only at h1 h2
      cases p1 with
      | nil =>
        rw [glob_eq_nil true p s sr hm] at h
        rw [glob_eq_nil false p s sr hmf]
        exact h
      | cons c pr =>
        by_cases hc : c = star
        · rw [glob_eq_cons true p s c pr sr hm, if_pos hc] at h
          rw [glob_eq_cons false p s c pr sr hmf, if_pos hc]
          by_cases hg : glob true pr sr = true
          · have hg2 : glob false pr sr = true := by
              apply ih pr sr _ hg
              simp only [List.length_cons] at h1
              omega
            simp [hg2]
          · rw [if_neg hg] at h
            cases sr with
            | nil => simp at h
            | cons x ss =>
              have hss : glob true (c :: pr) ss = true := by simpa using h
              have hss2 : glob false (c :: pr) ss = true := by
                apply ih (c :: pr) ss _ hss
                simp only [List.length_cons] at h1 h2 ⊢
                omega
              by_cases hgf : glob false pr (x :: ss) = true
              · simp [hgf]
              · simp only [hgf, if_false]
                exact hss2
        · rw [glob_eq_cons true p s c pr sr hm, if_neg hc] at h
          exact absurd h (by simp)
    · rw [glob_eq_cons true p s c pr sr hmt, if_neg hcst] at h
      exact absurd h (by simp)

/-- Claim C1: contrary to the claim, the lock-step scan does not stop at the
first `*` of the pattern when the aligned subject character is itself `*`:
`std::mismatch` passes the star to the per-character comparator, which
accepts it against a literal subject `*` (shown by the second conjunct), so
for pattern `"*x"` and subject `"*yx"` in case-sensitive mode the star is
consumed literally, the scan then fails on `x` versus `y`, and the matcher
returns `false` instead of letting the star absorb `*y`. -/
theorem c1_star_consumed_literally :
    glob true [star, 120] [star, 121, 120] = false ∧
    wildcard_comparator true star star = true := by
  constructor
  · exact glob_eval true [star, 120] [star, 121, 120] false (by decide)
  · decide

/-- Claim C2: contrary to the claim, a trailing `*` does not absorb a
remainder that starts with a literal `*`: with the empty metacharacter-free
prefix `P` and subject `"*c"`, the pattern `"*"` yields `false` in both case
modes, because the scan consumes the pattern star against the subject's
literal star and then requires the subject to be exhausted. -/
theorem c2_trailing_star_star_remainder :
    glob true [star] [star, 99] = false ∧
    glob false [star] [star, 99] = false := by
  constructor
  · exact glob_eval true [star] [star, 99] false (by decide)
  · exact glob_eval false [star] [star, 99] false (by decide)

/-- Claim C3: in case-insensitive mode, for every pattern character other
than `?` the comparator accepts exactly equal pairs, or pairs that are both
alphabetic with equal lowercase forms; in particular `'@'` (64) and `` '`' ``
(96), whose codes differ exactly by the fold bit, are rejected, and the
one-character match of `"@"` against `` "`" `` fails. -/
theorem c3_insensitive_comparator :
    (∀ p s : Nat, p ≠ qmark →
      (wildcard_comparator false p s = true ↔
        p = s ∨ (is_alpha p = true ∧ is_alpha s = true ∧ to_lower p = to_lower s))) ∧
    wildcard_comparator false 64 96 = false ∧
    glob false [64] [96] = false := by
  refine ⟨?_, by decide, glob_eval false [64] [96] false (by decide)⟩
  intro p s hq
  simp [wildcard_comparator, hq, and_assoc]

theorem c3_insensitive_comparator_witness :
    wildcard_comparator false 65 97 = true ↔
      (65 : Nat) = 97 ∨ (is_alpha 65 = true ∧ is_alpha 97 = true ∧ to_lower 65 = to_lower 97) :=
  c3_insensitive_comparator.1 65 97 (by decide)

/-- Claim C4: the matcher is a total function: for every case mode, pattern
and subject, the fuel-indexed transcription of the same recursion finishes
within `|pattern| + |subject| + 1` steps (each recursive call strictly
shortens the residual pattern, each retry strictly advances the subject) and
computes the boolean `glob` returns; there is no error outcome. -/
theorem c4_terminates_total :
    ∀ (cs : Bool) (p s : List Nat),
      globFuel cs (p.length + s.length + 1) p s = some (glob cs p s) :=
  fun cs p s => globFuel_eq cs (p.length + s.length + 1) p s (by omega)

/-- Claim C5: a `?` pattern character matches any subject character except
the literal dot, in both case modes: the comparator answers `s ≠ '.'`
before any case-sensitivity handling, and `"a?c"` rejects `"a.c"` and
accepts `"abc"` in both modes. -/
theorem c5_question_mark_excludes_dot :
    (∀ (cs : Bool) (s : Nat), wildcard_comparator cs qmark s = decide (s ≠ dot)) ∧
    (∀ cs : Bool, glob cs [97, qmark, 99] [97, dot, 99] = false) ∧
    (∀ cs : Bool, glob cs [97, qmark, 99] [97, 98, 99] = true) := by
  refine ⟨?_, ?_, ?_⟩
  · intro cs s
    simp [wildcard_comparator]
  · intro cs
    cases cs
    · exact glob_eval false [97, qmark, 99] [97, dot, 99] false (by decide)
    · exact glob_eval true [97, qmark, 99] [97, dot, 99] false (by decide)
  · intro cs
    cases cs
    · exact glob_eval false [97, qmark, 99] [97, 98, 99] true (by decide)
    · exact glob_eval true [97, qmark, 99] [97, 98, 99] true (by decide)

/-- Claim C6: backtracking across two stars finds the interleaving for
`"a*b*c"` against `"axxxbxxc"` and fails for `"a*b*c"` against
`"axxxxxxc"`, where no `b` is available for the middle literal
(case-sensitive mode). -/
theorem c6_backtracking_multi_star :
    glob true [97, star, 98, star, 99] [97, 120, 120, 120, 98, 120, 120, 99] = true ∧
    glob true [97, star, 98, star, 99] [97, 120, 120, 120, 120, 120, 120, 99] = false := by
  constructor
  · exact glob_eval true [97, star, 98, star, 99]
      [97, 120, 120, 120, 98, 120, 120, 99] true (by decide)
  · exact glob_eval true [97, star, 98, star, 99]
      [97, 120, 120, 120, 120, 120, 120, 99] false (by decide)

/-- Claim C7: the empty pattern matches exactly the empty subject in both
modes, and in general, whenever the scan exhausts the pattern the result is
true iff the residual subject is empty too (full-sequence match). -/
theorem c7_empty_pattern_full_match :
    (∀ (cs : Bool) (s : List Nat), glob cs [] s = s.isEmpty) ∧
    (∀ (cs : Bool) (p s sr : List Nat), mismatch cs p s = ([], sr) →
      glob cs p s = sr.isEmpty) := by
  constructor
  · intro cs s
    exact glob_eq_nil cs [] s s (by cases s <;> rfl)
  · intro cs p s sr hm
    exact glob_eq_nil cs p s sr hm

theorem c7_empty_pattern_full_match_witness :
    glob true [97] [97] = List.isEmpty ([] : List Nat) :=
  c7_empty_pattern_full_match.2 true [97] [97] [] (by decide)

/-- Claim C8: case-insensitive matching accepts a superset of case-sensitive
matching: any pattern/subject pair accepted in case-sensitive mode is also
accepted in case-insensitive mode. -/
theorem c8_insensitive_superset (p s : List Nat)
    (h : glob true p s = true) : glob false p s = true :=
  glob_mono_aux (p.length + s.length) p s (Nat.le_refl _) h

theorem c8_insensitive_superset_witness :
    glob false [97, 98] [97, 98] = true :=
  c8_insensitive_superset [97, 98] [97, 98]
    (glob_eval true [97, 98] [97, 98] true (by decide))

/-- Claim C9: every public entry point computes the same predicate as the
iterator-level `glob` on the underlying character contents: the
`string_view` overload, the generic overload, `glob_match` with a
compile-time `fixed_string` pattern, and the runtime wrapper `glob_me`
(which fixes case-insensitive mode); a `fixed_string` built from a
null-terminated literal applies the pattern without the terminating null
(`size()` is `Length - 1`). -/
theorem c9_entry_points_agree :
    (∀ (cs : Bool) (p s : List Nat), glob_sv cs p s = glob cs p s) ∧
    (∀ (cs : Bool) (a b : List Nat), glob_generic cs a b = glob cs a b) ∧
    (∀ (P : fixed_string) (cs : Bool) (s : List Nat),
      glob_match P cs s = glob cs (P.data.take (P.data.length - 1)) s) ∧
    (∀ p s : List Nat, glob_me p s = glob false p s) ∧
    (∀ (chars s : List Nat) (cs : Bool),
      glob_match ⟨chars ++ [0]⟩ cs s = glob cs chars s) ∧
    (∀ chars : List Nat, (fixed_string.mk (chars ++ [0])).size = chars.length) := by
  refine ⟨fun _ _ _ => rfl, fun _ _ _ => rfl, fun _ _ _ => rfl, fun _ _ => rfl, ?_, ?_⟩
  · intro chars s cs
    have hv : (fixed_string.mk (chars ++ [0])).to_view = chars := by
      simp [fixed_string.to_view, fixed_string.size, List.take_left]
    simp [glob_match, glob_sv, hv]
  · intro chars
    simp [fixed_string.size]

/-- Claim C10: `to_lower` is idempotent on every character code, and leaves
any code with the fold bit (bit 5, value 32 = `lowercase_bit`) already set
unchanged — in particular every ASCII lowercase letter. -/
theorem c10_to_lower_idempotent :
    (∀ c : Nat, to_lower (to_lower c) = to_lower c) ∧
    (∀ c : Nat, c.testBit 5 = true → to_lower c = c) ∧
    (∀ c : Nat, 97 ≤ c → c ≤ 122 → to_lower c = c) := by
  refine ⟨?_, ?_, ?_⟩
  · intro c
    have h32 : (32 : Nat) ||| 32 = 32 := by decide
    simp only [to_lower, lowercase_bit, Nat.lor_assoc, h32]
  · intro c h
    apply Nat.eq_of_testBit_eq
    intro i
    rw [to_lower, lowercase_bit, Nat.testBit_lor]
    by_cases hi : i = 5
    · subst hi
      simp [h, show Nat.testBit 32 5 = true from by decide]
    · have h32 : Nat.testBit 32 i = false := by
        have := Nat.testBit_two_pow_of_ne (n := 5) (m := i) (fun he => hi he.symm)
        simpa using this
      simp [h32]
  · intro c h1 h2
    interval_cases c <;> rfl

theorem c10_to_lower_idempotent_witness :
    to_lower (to_lower 65) = to_lower 65 ∧ to_lower 103 = 103 ∧ to_lower 122 = 122 :=
  ⟨c10_to_lower_idempotent.1 65,
   c10_to_lower_idempotent.2.1 103 (by decide),
   c10_to_lower_idempotent.2.2 122 (by decide) (by decide)⟩

end GlobCpp
